import Mathlib

/-!
Shallow embedding of the dregsy sync engine (`sync/sync.go`).

The registry client (`docker.Client`: `PullImage`, `ListImages`, `TagImage`,
`PushImage`, `Ping`, `SplitRef`) is an external collaborator of the core; it
is modelled as a structure of oracle functions.  Errors are `Option String`
(`none` = Go `nil` error), and `ListImages`, which in Go returns a pair
`([]*docker.Image, error)`, is modelled as returning both components.  Each
engine function is translated into a pure function that returns the trace of
client calls it issues (plus the error log lines it emits) together with its
Go return value.
-/

namespace Dregsy

/-- `docker.Image` (external `docker` package of this repository; fields as in
the spec data model: content identifier, repo, path, tag list). -/
structure Image where
  ID : String
  Repo : String
  Path : String
  Tags : List String
deriving DecidableEq, Repr

/-- Modelled from the spec: an Image's full reference is `Repo/Path[:Tag]`;
`Image.Ref` (external `docker` package, used by `Sync.tag` via
`tagged.Ref()`) is the tagless part `Repo/Path`. -/
def Image.Ref (img : Image) : String :=
  img.Repo ++ "/" ++ img.Path

/-- One observable client call made by the engine, or one error log line. -/
inductive Event where
  | pull (ref : String) (allTags : Bool) (auth : String) (verbose : Bool)
  | list (ref : String)
  | tagImage (id ref : String)
  | push (ref : String) (allTags : Bool) (auth : String) (verbose : Bool)
  | logError (msg : String)
deriving DecidableEq, Repr

/-- The registry client adapter (`docker.Client`), an oracle: each field gives
the outcome of the corresponding client call.  `listImages` returns the Go
pair `([]*docker.Image, error)`; `splitRef` is the spec's
`splitRef(ref) -> (repo, path)`. -/
structure Client where
  pullImage : String → Bool → String → Bool → Option String
  listImages : String → List Image × Option String
  tagImage : String → String → Option String
  pushImage : String → Bool → String → Bool → Option String
  splitRef : String → String × String
  ping : Nat → Nat → Option String

/-- A single quote character, used in the Go error format strings. -/
def sq : String := "\x27"

/-- `fmt.Errorf("error pulling source image '%s': %v", ref, err)`. -/
def pullErrMsg (ref msg : String) : String :=
  "error pulling source image " ++ sq ++ ref ++ sq ++ ": " ++ msg

/-- `fmt.Errorf("error listing all tags of source image '%s': %v", ref, err)`. -/
def listAllErrMsg (ref msg : String) : String :=
  "error listing all tags of source image " ++ sq ++ ref ++ sq ++ ": " ++ msg

/-- `fmt.Errorf("error listing source image '%s': %v", ref, err)`. -/
def listErrMsg (ref msg : String) : String :=
  "error listing source image " ++ sq ++ ref ++ sq ++ ": " ++ msg

/-- `fmt.Errorf("error setting tags: %v", err)`. -/
def tagsErrMsg (msg : String) : String :=
  "error setting tags: " ++ msg

/-- `fmt.Errorf("error pushing target image: %v", err)`. -/
def pushErrMsg (msg : String) : String :=
  "error pushing target image: " ++ msg

/-- `fmt.Sprintf("%s:%s", ref, tag)`. -/
def refTagged (ref tag : String) : String :=
  ref ++ ":" ++ tag

/-- `LogError(err)`: a failed step contributes one error log line. -/
def logOf : Option String → List Event
  | some m => [Event.logError m]
  | none => []

/-- The tag-by-tag pull loop of `Sync.Sync` (non-empty `tags` branch): pull
each `srcRef:tag` with `allTags = false`; the first failure returns the
wrapped error immediately. -/
def pullAll (C : Client) (srcRef srcAuth : String) (verbose : Bool) :
    List String → List Event × Option String
  | [] => ([], none)
  | t :: rest =>
    match C.pullImage (refTagged srcRef t) false srcAuth verbose with
    | some m =>
      ([Event.pull (refTagged srcRef t) false srcAuth verbose],
       some (pullErrMsg (refTagged srcRef t) m))
    | none =>
      let r := pullAll C srcRef srcAuth verbose rest
      (Event.pull (refTagged srcRef t) false srcAuth verbose :: r.1, r.2)

/-- The pull phase of `Sync.Sync`: all-tags pull of `srcRef` when `tags` is
empty, otherwise one pull per tag. -/
def pullPhase (C : Client) (srcRef srcAuth : String) (verbose : Bool)
    (tags : List String) : List Event × Option String :=
  match tags with
  | [] =>
    match C.pullImage srcRef true srcAuth verbose with
    | some m => ([Event.pull srcRef true srcAuth verbose], some (pullErrMsg srcRef m))
    | none => ([Event.pull srcRef true srcAuth verbose], none)
  | t :: rest => pullAll C srcRef srcAuth verbose (t :: rest)

/-- The tag-by-tag list loop of `Sync.Sync`: one `ListImages` call per tag,
errors logged (never returned), the returned image slices appended in tag
order. -/
def listTags (C : Client) (srcRef : String) :
    List String → List Event × List Image
  | [] => ([], [])
  | t :: rest =>
    let li := C.listImages (refTagged srcRef t)
    let r := listTags C srcRef rest
    (Event.list (refTagged srcRef t)
       :: (logOf (li.2.map (listErrMsg (refTagged srcRef t))) ++ r.1),
     li.1 ++ r.2)

/-- The enumeration phase of `Sync.Sync`: a single `ListImages` call on
`srcRef` when `tags` is empty, otherwise one per tag; list errors are logged,
never returned. -/
def listPhase (C : Client) (srcRef : String) (tags : List String) :
    List Event × List Image :=
  match tags with
  | [] =>
    let li := C.listImages srcRef
    (Event.list srcRef :: logOf (li.2.map (listAllErrMsg srcRef)), li.1)
  | t :: rest => listTags C srcRef (t :: rest)

/-- The fresh target-side image value built by `Sync.tag` for one source
image: same ID and tags, repo and path from the split target reference. -/
def retag (targetRepo targetPath : String) (img : Image) : Image :=
  { ID := img.ID, Repo := targetRepo, Path := targetPath, Tags := img.Tags }

/-- The inner loop of `Sync.tag`: one `TagImage(img.ID, base:tag)` call per
tag of one image; the first failure returns its error. -/
def tagOne (C : Client) (id base : String) :
    List String → List Event × Option String
  | [] => ([], none)
  | tg :: rest =>
    match C.tagImage id (refTagged base tg) with
    | some e => ([Event.tagImage id (refTagged base tg)], some e)
    | none =>
      let r := tagOne C id base rest
      (Event.tagImage id (refTagged base tg) :: r.1, r.2)

/-- The outer loop of `Sync.tag`: for each image, build the retagged value and
tag every one of its tags; a failure returns `(nil, err)` immediately. -/
def tagGo (C : Client) (targetRepo targetPath : String) :
    List Image → List Event × Except String (List Image)
  | [] => ([], Except.ok [])
  | img :: rest =>
    let tagged := retag targetRepo targetPath img
    let one := tagOne C img.ID tagged.Ref img.Tags
    match one.2 with
    | some e => (one.1, Except.error e)
    | none =>
      let r := tagGo C targetRepo targetPath rest
      match r.2 with
      | Except.error e => (one.1 ++ r.1, Except.error e)
      | Except.ok l => (one.1 ++ r.1, Except.ok (tagged :: l))

/-- `Sync.tag`: split the target reference with `docker.SplitRef` (the third
component is discarded in the source) and run the tagging loops. -/
def tag (C : Client) (images : List Image) (targetRef : String) :
    List Event × Except String (List Image) :=
  tagGo C (C.splitRef targetRef).1 (C.splitRef targetRef).2 images

/-- The part of `Sync.Sync` after a successful pull phase: enumerate, re-tag
(hard error, wrapped), then `Sync.push` = `PushImage(trgtRef, true, auth,
verbose)` (hard error, wrapped). -/
def afterPull (C : Client) (srcRef trgtRef trgtAuth : String)
    (tags : List String) (verbose : Bool) : List Event × Option String :=
  let lp := listPhase C srcRef tags
  let tg := tag C lp.2 trgtRef
  match tg.2 with
  | Except.error e => (lp.1 ++ tg.1, some (tagsErrMsg e))
  | Except.ok _ =>
    match C.pushImage trgtRef true trgtAuth verbose with
    | some m =>
      (lp.1 ++ tg.1 ++ [Event.push trgtRef true trgtAuth verbose],
       some (pushErrMsg m))
    | none =>
      (lp.1 ++ tg.1 ++ [Event.push trgtRef true trgtAuth verbose], none)

/-- `Sync.Sync(srcRef, srcAuth, trgtRef, trgtAuth, tags, verbose)`: trace of
client calls and error log lines, plus the returned error. -/
def Sync (C : Client) (srcRef srcAuth trgtRef trgtAuth : String)
    (tags : List String) (verbose : Bool) : List Event × Option String :=
  let pp := pullPhase C srcRef srcAuth verbose tags
  match pp.2 with
  | some e => (pp.1, some e)
  | none =>
    let ap := afterPull C srcRef trgtRef trgtAuth tags verbose
    (pp.1 ++ ap.1, ap.2)

/-- Recognizer for pull events. -/
def isPull : Event → Bool
  | Event.pull _ _ _ _ => true
  | _ => false

/-- Recognizer for list events. -/
def isList : Event → Bool
  | Event.list _ => true
  | _ => false

/-- Recognizer for tag events. -/
def isTagEv : Event → Bool
  | Event.tagImage _ _ => true
  | _ => false

/-- Recognizer for push events. -/
def isPushEv : Event → Bool
  | Event.push _ _ _ _ => true
  | _ => false

/-- Recognizer for error log lines. -/
def isLogErr : Event → Bool
  | Event.logError _ => true
  | _ => false

/-- A registry endpoint with its current credential (`Location` of the task
configuration; the registry-kind metadata plays no role in the core engine
and is omitted). -/
structure Location where
  Registry : String
  Auth : String
deriving DecidableEq, Repr

/-- One source-path to target-path pairing with an optional tag filter. -/
structure Mapping where
  From : String
  To : String
  Tags : List String
deriving DecidableEq, Repr

/-- A named group of mappings sharing a source and a target location, with a
recurrence interval (`0` = one-off) and a verbosity flag. -/
structure Task where
  Name : String
  Source : Location
  Target : Location
  Mappings : List Mapping
  Interval : Nat
  Verbose : Bool
deriving DecidableEq, Repr

/-- Modelled from the spec: `task.mappingRefs` (task resolution code of this
repository, not under `src/`) resolves concrete source/target references by
combining `Task.Source/Target.Registry` with `Mapping.From/To`. -/
def mappingRefs (t : Task) (m : Mapping) : String × String :=
  (t.Source.Registry ++ m.From, t.Target.Registry ++ m.To)

/-- Modelled from the spec: the auth/identity collaborator behind
`Location.refreshAuth` and `task.ensureTargetExists` (both of this repository
but not under `src/`), as an oracle.  `refreshAuth` either produces a fresh
credential for the location or fails; `ensureTargetExists` may fail. -/
structure AuthProvider where
  refreshAuth : Location → Except String String
  ensureTargetExists : String → Option String

/-- Modelled from the spec: applying one `refreshAuth` call to a location —
on success the stored credential is replaced, on failure it is left in place
and the error is reported to the caller (which logs it). -/
def applyRefresh (A : AuthProvider) (loc : Location) : Location × Option String :=
  match A.refreshAuth loc with
  | Except.ok a => ({ loc with Auth := a }, none)
  | Except.error e => (loc, some e)

/-- One observable step of `Sync.SyncTask`. -/
inductive TEvent where
  | refreshAuth (registry : String)
  | ensureTarget (ref : String)
  | syncCall (srcRef srcAuth trgtRef trgtAuth : String) (tags : List String)
      (verbose : Bool) (inner : List Event)
  | logError (msg : String)
deriving DecidableEq, Repr

/-- `LogError` at the task level. -/
def logOfT : Option String → List TEvent
  | some m => [TEvent.logError m]
  | none => []

/-- The mapping loop of `Sync.SyncTask`: for each mapping, resolve the
references, refresh source then target auth (errors logged), ensure the
target exists (error logged), call `Sync.Sync` (error logged), and continue
with the next mapping.  The two locations are threaded because `refreshAuth`
replaces the stored credential in place. -/
def syncMappings (C : Client) (A : AuthProvider) (source target : Location)
    (verbose : Bool) : List Mapping → List TEvent × Location × Location
  | [] => ([], source, target)
  | m :: rest =>
    let src := source.Registry ++ m.From
    let trgt := target.Registry ++ m.To
    let rs := applyRefresh A source
    let rt := applyRefresh A target
    let e3 := A.ensureTargetExists trgt
    let sy := Sync C src rs.1.Auth trgt rt.1.Auth m.Tags verbose
    let seg :=
      TEvent.refreshAuth source.Registry :: logOfT rs.2
        ++ TEvent.refreshAuth target.Registry :: logOfT rt.2
        ++ TEvent.ensureTarget trgt :: logOfT e3
        ++ TEvent.syncCall src rs.1.Auth trgt rt.1.Auth m.Tags verbose sy.1
        :: logOfT sy.2
    let r := syncMappings C A rs.1 rt.1 verbose rest
    (seg ++ r.1, r.2)

/-- `Sync.SyncTask(t)`: process every mapping of the task in declared order;
the function has no return value in the source, so the model returns the
trace and the task with its (possibly refreshed) locations. -/
def SyncTask (C : Client) (A : AuthProvider) (t : Task) : List TEvent × Task :=
  let r := syncMappings C A t.Source t.Target t.Verbose t.Mappings
  (r.1, { t with Source := r.2.1, Target := r.2.2 })

/-- Recognizer for sync-pipeline invocations at the task level. -/
def isSyncCall : TEvent → Bool
  | TEvent.syncCall _ _ _ _ _ _ _ => true
  | _ => false

/-- Recognizer for auth-refresh steps. -/
def isRefresh : TEvent → Bool
  | TEvent.refreshAuth _ => true
  | _ => false

/-- Recognizer for ensure-target steps. -/
def isEnsure : TEvent → Bool
  | TEvent.ensureTarget _ => true
  | _ => false

/-- The source reference, target reference and tag filter of a sync
invocation event. -/
def projSync : TEvent → String × String × List String
  | TEvent.syncCall s _ t _ tg _ _ => (s, t, tg)
  | _ => ("", "", [])

/-- The task list read from configuration (`syncConfig`). -/
structure syncConfig where
  Tasks : List Task

/-- One observable step of `Sync.SyncFromConfig`. -/
inductive SEvent where
  | ping (attempts intervalSeconds : Nat)
  | logError (msg : String)
  | runTask (name : String) (inner : List TEvent)
deriving DecidableEq, Repr

/-- Whether `SyncFromConfig` has returned (with the Go error value) or loops
forever waiting for / consuming ticks. -/
inductive Outcome where
  | running
  | returned (err : Option String)
deriving DecidableEq, Repr

/-- The one-off pass of `SyncFromConfig`: run `SyncTask` on every task whose
`Interval` is `0`, in configuration order, threading task state. -/
def oneOffPass (C : Client) (A : AuthProvider) :
    List Task → List SEvent × List Task
  | [] => ([], [])
  | t :: rest =>
    if t.Interval = 0 then
      let r := SyncTask C A t
      let rr := oneOffPass C A rest
      (SEvent.runTask t.Name r.1 :: rr.1, r.2 :: rr.2)
    else
      let rr := oneOffPass C A rest
      (rr.1, t :: rr.2)

/-- The tick-consumption loop of `SyncFromConfig`: the shared channel
delivers (pointers to) recurring tasks, modelled as indices into the task
list; each received task is run by `SyncTask`, one at a time, in arrival
order. -/
def tickLoop (C : Client) (A : AuthProvider) :
    List Task → List Nat → List SEvent × List Task
  | tasks, [] => ([], tasks)
  | tasks, i :: rest =>
    match tasks[i]? with
    | none => tickLoop C A tasks rest
    | some t =>
      let r := SyncTask C A t
      let rr := tickLoop C A (tasks.set i r.2) rest
      (SEvent.runTask t.Name r.1 :: rr.1, rr.2)

/-- The initial liveness check of `SyncFromConfig`:
`client.Ping(30, 10*time.Second)`, its failure logged and ignored. -/
def pingSeg (C : Client) : List SEvent :=
  SEvent.ping 30 10 ::
    (match C.ping 30 10 with
     | some m => [SEvent.logError m]
     | none => [])

/-- `Sync.SyncFromConfig(conf)`: ping (non-fatal), one-off pass, then — when
at least one task is recurring — consume ticks forever (`Outcome.running`
for every finite tick schedule); with no recurring task it returns `nil`
after the one-off pass. -/
def SyncFromConfig (C : Client) (A : AuthProvider) (conf : syncConfig)
    (ticks : List Nat) : List SEvent × Outcome :=
  let po := oneOffPass C A conf.Tasks
  if conf.Tasks.any (fun t => 0 < t.Interval) then
    (pingSeg C ++ po.1 ++ (tickLoop C A po.2 ticks).1, Outcome.running)
  else
    (pingSeg C ++ po.1, Outcome.returned none)

/-- Recognizer for task-execution events of the scheduler. -/
def isRunTask : SEvent → Bool
  | SEvent.runTask _ _ => true
  | _ => false

/-- The task name of a task-execution event. -/
def nameOf : SEvent → String
  | SEvent.runTask n _ => n
  | _ => ""

/-- The step-relevant content of a task-level event: which step it is and the
registry/reference it addresses (auth values and inner traces projected
away). -/
inductive StepView where
  | refresh (registry : String)
  | ensure (ref : String)
  | sync (srcRef trgtRef : String) (tags : List String)
deriving DecidableEq, Repr

/-- Project a task-level event to its step view; log lines project to
nothing. -/
def stepView : TEvent → Option StepView
  | TEvent.refreshAuth r => some (StepView.refresh r)
  | TEvent.ensureTarget r => some (StepView.ensure r)
  | TEvent.syncCall s _ t _ tg _ _ => some (StepView.sync s t tg)
  | TEvent.logError _ => none

/-- Recognizer for task-level error log lines. -/
def isTLogErr : TEvent → Bool
  | TEvent.logError _ => true
  | _ => false

/-- The error values produced by the four steps (source refresh, target
refresh, ensure target, Sync) of each mapping of a task run, in step order,
threading the refreshed locations exactly as the mapping loop does.  Used to
state that `SyncTask` logs every step error. -/
def stepErrors (C : Client) (A : AuthProvider) (source target : Location)
    (verbose : Bool) : List Mapping → List String
  | [] => []
  | m :: rest =>
    let src := source.Registry ++ m.From
    let trgt := target.Registry ++ m.To
    let rs := applyRefresh A source
    let rt := applyRefresh A target
    let e3 := A.ensureTargetExists trgt
    let sy := Sync C src rs.1.Auth trgt rt.1.Auth m.Tags verbose
    (rs.2.toList ++ rt.2.toList ++ e3.toList ++ sy.2.toList)
      ++ stepErrors C A rs.1 rt.1 verbose rest

/-- A concrete client whose pull calls always fail. -/
def cexClient : Client where
  pullImage := fun _ _ _ _ => some "daemon offline"
  listImages := fun _ => ([], none)
  tagImage := fun _ _ => none
  pushImage := fun _ _ _ _ => none
  splitRef := fun _ => ("", "")
  ping := fun _ _ => none

/-- A concrete client for which every operation succeeds; each list call
returns one image carrying one tag. -/
def okClient : Client where
  pullImage := fun _ _ _ _ => none
  listImages := fun _ => ([{ ID := "sha1", Repo := "reg", Path := "img", Tags := ["a"] }], none)
  tagImage := fun _ _ => none
  pushImage := fun _ _ _ _ => none
  splitRef := fun _ => ("treg", "tpath")
  ping := fun _ _ => none

/-- A concrete client whose pull fails exactly on the reference `src:bad`. -/
def pullFailClient : Client where
  pullImage := fun r _ _ _ => if r = "src:bad" then some "down" else none
  listImages := fun _ => ([], none)
  tagImage := fun _ _ => none
  pushImage := fun _ _ _ _ => none
  splitRef := fun _ => ("", "")
  ping := fun _ _ => none

/-- A concrete client whose list calls always fail, returning no images. -/
def listFailClient : Client where
  pullImage := fun _ _ _ _ => none
  listImages := fun _ => ([], some "registry unreachable")
  tagImage := fun _ _ => none
  pushImage := fun _ _ _ _ => none
  splitRef := fun _ => ("t", "p")
  ping := fun _ _ => none

theorem filter_nil_of_shape {l : List Event} {q r : Event → Bool}
    (h : ∀ e ∈ l, q e = true) (hqr : ∀ e, q e = true → r e = false) :
    l.filter r = [] := by
  rw [List.filter_eq_nil_iff]
  intro e he
  simp [hqr e (h e he)]

theorem filter_nil_of_shape2 {l : List Event} {q1 q2 r : Event → Bool}
    (h : ∀ e ∈ l, q1 e = true ∨ q2 e = true)
    (h1 : ∀ e, q1 e = true → r e = false)
    (h2 : ∀ e, q2 e = true → r e = false) :
    l.filter r = [] := by
  rw [List.filter_eq_nil_iff]
  intro e he
  rcases h e he with hq | hq
  · simp [h1 e hq]
  · simp [h2 e hq]

theorem logOf_shape (o : Option String) : ∀ e ∈ logOf o, isLogErr e = true := by
  cases o <;> simp [logOf, isLogErr]

theorem pullAll_shape (C : Client) (srcRef srcAuth : String) (verbose : Bool)
    (ts : List String) :
    ∀ e ∈ (pullAll C srcRef srcAuth verbose ts).1, isPull e = true := by
  induction ts with
  | nil => simp [pullAll]
  | cons t rest ih =>
    cases h : C.pullImage (refTagged srcRef t) false srcAuth verbose <;>
      simp [pullAll, h, isPull]
    exact ih

theorem pullPhase_shape (C : Client) (srcRef srcAuth : String) (verbose : Bool)
    (tags : List String) :
    ∀ e ∈ (pullPhase C srcRef srcAuth verbose tags).1, isPull e = true := by
  cases tags with
  | nil =>
    cases h : C.pullImage srcRef true srcAuth verbose <;>
      simp [pullPhase, h, isPull]
  | cons t rest => exact pullAll_shape C srcRef srcAuth verbose (t :: rest)

theorem listTags_shape (C : Client) (srcRef : String) (ts : List String) :
    ∀ e ∈ (listTags C srcRef ts).1, isList e = true ∨ isLogErr e = true := by
  induction ts with
  | nil => simp [listTags]
  | cons t rest ih =>
    intro e he
    simp only [listTags, List.mem_cons, List.mem_append] at he
    rcases he with rfl | he | he
    · exact Or.inl rfl
    · exact Or.inr (logOf_shape _ e he)
    · exact ih e he

theorem listPhase_shape (C : Client) (srcRef : String) (tags : List String) :
    ∀ e ∈ (listPhase C srcRef tags).1, isList e = true ∨ isLogErr e = true := by
  cases tags with
  | nil =>
    intro e he
    simp only [listPhase, List.mem_cons] at he
    rcases he with rfl | he
    · exact Or.inl rfl
    · exact Or.inr (logOf_shape _ e he)
  | cons t rest => exact listTags_shape C srcRef (t :: rest)

theorem tagOne_shape (C : Client) (id base : String) (ts : List String) :
    ∀ e ∈ (tagOne C id base ts).1, isTagEv e = true := by
  induction ts with
  | nil => simp [tagOne]
  | cons tg rest ih =>
    cases h : C.tagImage id (refTagged base tg) <;>
      simp [tagOne, h, isTagEv]
    exact ih

theorem tagGo_shape (C : Client) (targetRepo targetPath : String)
    (images : List Image) :
    ∀ e ∈ (tagGo C targetRepo targetPath images).1, isTagEv e = true := by
  induction images with
  | nil => simp [tagGo]
  | cons img rest ih =>
    intro e he
    simp only [tagGo] at he
    rcases h1 : (tagOne C img.ID (retag targetRepo targetPath img).Ref img.Tags).2 with _ | e1
    · rw [h1] at he
      rcases h2 : (tagGo C targetRepo targetPath rest).2 with e2 | l
      · rw [h2] at he
        simp only [List.mem_append] at he
        rcases he with he | he
        · exact tagOne_shape C _ _ _ e he
        · exact ih e he
      · rw [h2] at he
        simp only [List.mem_append] at he
        rcases he with he | he
        · exact tagOne_shape C _ _ _ e he
        · exact ih e he
    · rw [h1] at he
      exact tagOne_shape C _ _ _ e he

theorem tag_shape (C : Client) (images : List Image) (targetRef : String) :
    ∀ e ∈ (tag C images targetRef).1, isTagEv e = true :=
  tagGo_shape C _ _ images

theorem pullAll_ok (C : Client) (srcRef srcAuth : String) (verbose : Bool)
    (ts : List String)
    (h : ∀ t ∈ ts, C.pullImage (refTagged srcRef t) false srcAuth verbose = none) :
    pullAll C srcRef srcAuth verbose ts
      = (ts.map (fun t => Event.pull (refTagged srcRef t) false srcAuth verbose),
         none) := by
  induction ts with
  | nil => rfl
  | cons t rest ih =>
    have ht := h t (List.mem_cons_self t rest)
    have hrest := fun x hx => h x (List.mem_cons_of_mem t hx)
    simp [pullAll, ht, ih hrest]

theorem pullAll_fail (C : Client) (srcRef srcAuth : String) (verbose : Bool)
    (pre post : List String) (t m : String)
    (hpre : ∀ p ∈ pre, C.pullImage (refTagged srcRef p) false srcAuth verbose = none)
    (ht : C.pullImage (refTagged srcRef t) false srcAuth verbose = some m) :
    pullAll C srcRef srcAuth verbose (pre ++ t :: post)
      = (pre.map (fun p => Event.pull (refTagged srcRef p) false srcAuth verbose)
          ++ [Event.pull (refTagged srcRef t) false srcAuth verbose],
         some (pullErrMsg (refTagged srcRef t) m)) := by
  induction pre with
  | nil => simp [pullAll, ht]
  | cons p pre ih =>
    have hp := hpre p (List.mem_cons_self p pre)
    have hpre2 := fun x hx => hpre x (List.mem_cons_of_mem p hx)
    simp [pullAll, hp, ih hpre2]

theorem pullPhase_ok (C : Client) (srcRef srcAuth : String) (verbose : Bool)
    (tags : List String)
    (hempty : C.pullImage srcRef true srcAuth verbose = none)
    (h : ∀ t ∈ tags, C.pullImage (refTagged srcRef t) false srcAuth verbose = none) :
    pullPhase C srcRef srcAuth verbose tags
      = (match tags with
         | [] => [Event.pull srcRef true srcAuth verbose]
         | _ => tags.map (fun t => Event.pull (refTagged srcRef t) false srcAuth verbose),
         none) := by
  cases tags with
  | nil => simp [pullPhase, hempty]
  | cons t rest => simpa [pullPhase] using pullAll_ok C srcRef srcAuth verbose (t :: rest) h

theorem listTags_eq (C : Client) (srcRef : String) (ts : List String) :
    listTags C srcRef ts
      = (ts.flatMap (fun t =>
            Event.list (refTagged srcRef t)
              :: logOf ((C.listImages (refTagged srcRef t)).2.map
                   (listErrMsg (refTagged srcRef t)))),
         ts.flatMap (fun t => (C.listImages (refTagged srcRef t)).1)) := by
  induction ts with
  | nil => rfl
  | cons t rest ih => simp [listTags, ih]

theorem listTags_filter_list (C : Client) (srcRef : String) (ts : List String) :
    (listTags C srcRef ts).1.filter isList
      = ts.map (fun t => Event.list (refTagged srcRef t)) := by
  induction ts with
  | nil => rfl
  | cons t rest ih =>
    have hlog : (logOf ((C.listImages (refTagged srcRef t)).2.map
        (listErrMsg (refTagged srcRef t)))).filter isList = [] :=
      filter_nil_of_shape (logOf_shape _)
        (fun e he => by cases e <;> simp_all [isLogErr, isList])
    simp [listTags, List.filter_cons, List.filter_append, isList, hlog, ih]

theorem listPhase_filter_list (C : Client) (srcRef : String) (tags : List String) :
    (listPhase C srcRef tags).1.filter isList
      = (match tags with
         | [] => [Event.list srcRef]
         | _ => tags.map (fun t => Event.list (refTagged srcRef t))) := by
  cases tags with
  | nil =>
    have hlog : (logOf ((C.listImages srcRef).2.map (listAllErrMsg srcRef))).filter
        isList = [] :=
      filter_nil_of_shape (logOf_shape _)
        (fun e he => by cases e <;> simp_all [isLogErr, isList])
    simp [listPhase, List.filter_cons, isList, hlog]
  | cons t rest => simpa [listPhase] using listTags_filter_list C srcRef (t :: rest)

theorem listPhase_images (C : Client) (srcRef : String) (tags : List String) :
    (listPhase C srcRef tags).2
      = (match tags with
         | [] => (C.listImages srcRef).1
         | _ => tags.flatMap (fun t => (C.listImages (refTagged srcRef t)).1)) := by
  cases tags with
  | nil => rfl
  | cons t rest => simpa [listPhase] using congrArg Prod.snd (listTags_eq C srcRef (t :: rest))

theorem tagOne_ok (C : Client) (id base : String) (ts : List String)
    (h : ∀ tg ∈ ts, C.tagImage id (refTagged base tg) = none) :
    tagOne C id base ts
      = (ts.map (fun tg => Event.tagImage id (refTagged base tg)), none) := by
  induction ts with
  | nil => rfl
  | cons tg rest ih =>
    have htg := h tg (List.mem_cons_self tg rest)
    have hrest := fun x hx => h x (List.mem_cons_of_mem tg hx)
    simp [tagOne, htg, ih hrest]

theorem tagGo_ok (C : Client) (targetRepo targetPath : String)
    (images : List Image)
    (h : ∀ img ∈ images, ∀ tg ∈ img.Tags,
        C.tagImage img.ID (refTagged (targetRepo ++ "/" ++ targetPath) tg) = none) :
    tagGo C targetRepo targetPath images
      = (images.flatMap (fun img => img.Tags.map (fun tg =>
            Event.tagImage img.ID (refTagged (targetRepo ++ "/" ++ targetPath) tg))),
         Except.ok (images.map (retag targetRepo targetPath))) := by
  induction images with
  | nil => rfl
  | cons img rest ih =>
    have himg := h img (List.mem_cons_self img rest)
    have hrest := fun x hx => h x (List.mem_cons_of_mem img hx)
    have hone := tagOne_ok C img.ID (retag targetRepo targetPath img).Ref img.Tags
      (by simpa [retag, Image.Ref] using himg)
    simp only [retag, Image.Ref] at hone
    simp [tagGo, hone, ih hrest, retag, Image.Ref]

theorem Sync_pull_ok (C : Client) (srcRef srcAuth trgtRef trgtAuth : String)
    (tags : List String) (verbose : Bool)
    (h : (pullPhase C srcRef srcAuth verbose tags).2 = none) :
    Sync C srcRef srcAuth trgtRef trgtAuth tags verbose
      = ((pullPhase C srcRef srcAuth verbose tags).1
          ++ (afterPull C srcRef trgtRef trgtAuth tags verbose).1,
         (afterPull C srcRef trgtRef trgtAuth tags verbose).2) := by
  simp [Sync, h]

theorem Sync_pull_fail (C : Client) (srcRef srcAuth trgtRef trgtAuth : String)
    (tags : List String) (verbose : Bool) (e : String)
    (h : (pullPhase C srcRef srcAuth verbose tags).2 = some e) :
    Sync C srcRef srcAuth trgtRef trgtAuth tags verbose
      = ((pullPhase C srcRef srcAuth verbose tags).1, some e) := by
  simp [Sync, h]

theorem afterPull_tag_ok (C : Client) (srcRef trgtRef trgtAuth : String)
    (tags : List String) (verbose : Bool) (l : List Image)
    (h : (tag C (listPhase C srcRef tags).2 trgtRef).2 = Except.ok l) :
    afterPull C srcRef trgtRef trgtAuth tags verbose
      = ((listPhase C srcRef tags).1
          ++ (tag C (listPhase C srcRef tags).2 trgtRef).1
          ++ [Event.push trgtRef true trgtAuth verbose],
         (C.pushImage trgtRef true trgtAuth verbose).map pushErrMsg) := by
  cases hp : C.pushImage trgtRef true trgtAuth verbose <;>
    simp [afterPull, h, hp]

theorem afterPull_tag_fail (C : Client) (srcRef trgtRef trgtAuth : String)
    (tags : List String) (verbose : Bool) (e : String)
    (h : (tag C (listPhase C srcRef tags).2 trgtRef).2 = Except.error e) :
    afterPull C srcRef trgtRef trgtAuth tags verbose
      = ((listPhase C srcRef tags).1
          ++ (tag C (listPhase C srcRef tags).2 trgtRef).1,
         some (tagsErrMsg e)) := by
  simp [afterPull, h]

theorem listPhase_filter_pull (C : Client) (srcRef : String) (tags : List String) :
    (listPhase C srcRef tags).1.filter isPull = [] :=
  filter_nil_of_shape2 (listPhase_shape C srcRef tags)
    (fun e _ => by cases e <;> simp_all [isList, isPull])
    (fun e _ => by cases e <;> simp_all [isLogErr, isPull])

theorem tag_filter_pull (C : Client) (images : List Image) (targetRef : String) :
    (tag C images targetRef).1.filter isPull = [] :=
  filter_nil_of_shape (tag_shape C images targetRef)
    (fun e _ => by cases e <;> simp_all [isTagEv, isPull])

theorem tag_filter_list (C : Client) (images : List Image) (targetRef : String) :
    (tag C images targetRef).1.filter isList = [] :=
  filter_nil_of_shape (tag_shape C images targetRef)
    (fun e _ => by cases e <;> simp_all [isTagEv, isList])

theorem afterPull_filter_pull (C : Client) (srcRef trgtRef trgtAuth : String)
    (tags : List String) (verbose : Bool) :
    (afterPull C srcRef trgtRef trgtAuth tags verbose).1.filter isPull = [] := by
  rcases h : (tag C (listPhase C srcRef tags).2 trgtRef).2 with e | l
  · rw [afterPull_tag_fail C srcRef trgtRef trgtAuth tags verbose e h]
    simp [List.filter_append, listPhase_filter_pull, tag_filter_pull]
  · rw [afterPull_tag_ok C srcRef trgtRef trgtAuth tags verbose l h]
    simp [List.filter_append, List.filter_cons, listPhase_filter_pull,
      tag_filter_pull, isPull]

theorem afterPull_filter_list (C : Client) (srcRef trgtRef trgtAuth : String)
    (tags : List String) (verbose : Bool) :
    (afterPull C srcRef trgtRef trgtAuth tags verbose).1.filter isList
      = (listPhase C srcRef tags).1.filter isList := by
  rcases h : (tag C (listPhase C srcRef tags).2 trgtRef).2 with e | l
  · rw [afterPull_tag_fail C srcRef trgtRef trgtAuth tags verbose e h]
    simp [List.filter_append, tag_filter_list]
  · rw [afterPull_tag_ok C srcRef trgtRef trgtAuth tags verbose l h]
    simp [List.filter_append, List.filter_cons, tag_filter_list, isList]

theorem afterPull_filter_tag (C : Client) (srcRef trgtRef trgtAuth : String)
    (tags : List String) (verbose : Bool) :
    (afterPull C srcRef trgtRef trgtAuth tags verbose).1.filter isTagEv
      = (tag C (listPhase C srcRef tags).2 trgtRef).1 := by
  have hlp : (listPhase C srcRef tags).1.filter isTagEv = [] :=
    filter_nil_of_shape2 (listPhase_shape C srcRef tags)
      (fun e _ => by cases e <;> simp_all [isList, isTagEv])
      (fun e _ => by cases e <;> simp_all [isLogErr, isTagEv])
  have htg : (tag C (listPhase C srcRef tags).2 trgtRef).1.filter isTagEv
      = (tag C (listPhase C srcRef tags).2 trgtRef).1 :=
    List.filter_eq_self.mpr (tag_shape C _ trgtRef)
  rcases h : (tag C (listPhase C srcRef tags).2 trgtRef).2 with e | l
  · rw [afterPull_tag_fail C srcRef trgtRef trgtAuth tags verbose e h]
    simp [List.filter_append, hlp, htg]
  · rw [afterPull_tag_ok C srcRef trgtRef trgtAuth tags verbose l h]
    simp [List.filter_append, List.filter_cons, hlp, htg, isTagEv]

theorem Sync_push_shape (C : Client) (srcRef srcAuth trgtRef trgtAuth : String)
    (tags : List String) (verbose : Bool) :
    ∀ e ∈ (Sync C srcRef srcAuth trgtRef trgtAuth tags verbose).1,
      isPushEv e = true → e = Event.push trgtRef true trgtAuth verbose := by
  intro e he hp
  rcases h : (pullPhase C srcRef srcAuth verbose tags).2 with _ | er
  · rw [Sync_pull_ok C srcRef srcAuth trgtRef trgtAuth tags verbose h] at he
    rcases List.mem_append.mp he with he | he
    · have := pullPhase_shape C srcRef srcAuth verbose tags e he
      cases e <;> simp_all [isPull, isPushEv]
    · rcases htag : (tag C (listPhase C srcRef tags).2 trgtRef).2 with er2 | l
      · rw [afterPull_tag_fail C srcRef trgtRef trgtAuth tags verbose er2 htag] at he
        rcases List.mem_append.mp he with he | he
        · have := listPhase_shape C srcRef tags e he
          rcases this with h2 | h2 <;> cases e <;>
            simp_all [isList, isLogErr, isPushEv]
        · have := tag_shape C _ trgtRef e he
          cases e <;> simp_all [isTagEv, isPushEv]
      · rw [afterPull_tag_ok C srcRef trgtRef trgtAuth tags verbose l htag] at he
        simp only [List.append_assoc, List.mem_append, List.mem_singleton] at he
        rcases he with he | he | rfl
        · have := listPhase_shape C srcRef tags e he
          rcases this with h2 | h2 <;> cases e <;>
            simp_all [isList, isLogErr, isPushEv]
        · have := tag_shape C _ trgtRef e he
          cases e <;> simp_all [isTagEv, isPushEv]
        · rfl
  · rw [Sync_pull_fail C srcRef srcAuth trgtRef trgtAuth tags verbose er h] at he
    have := pullPhase_shape C srcRef srcAuth verbose tags e he
    cases e <;> simp_all [isPull, isPushEv]

theorem applyRefresh_registry (A : AuthProvider) (loc : Location) :
    (applyRefresh A loc).1.Registry = loc.Registry := by
  cases h : A.refreshAuth loc <;> simp [applyRefresh, h]

theorem logOfT_filter_syncCall (o : Option String) :
    (logOfT o).filter isSyncCall = [] := by
  cases o <;> rfl

theorem logOfT_filter_refresh (o : Option String) :
    (logOfT o).filter isRefresh = [] := by
  cases o <;> rfl

theorem logOfT_filter_ensure (o : Option String) :
    (logOfT o).filter isEnsure = [] := by
  cases o <;> rfl

theorem logOfT_filterMap_stepView (o : Option String) :
    (logOfT o).filterMap stepView = [] := by
  cases o <;> rfl

theorem logOfT_filter_logErr (o : Option String) :
    (logOfT o).filter isTLogErr = o.toList.map TEvent.logError := by
  cases o <;> rfl

theorem syncMappings_step_views (C : Client) (A : AuthProvider)
    (src trg : Location) (v : Bool) (ms : List Mapping) :
    ((syncMappings C A src trg v ms).1.filterMap stepView
        = ms.flatMap (fun m =>
            [StepView.refresh src.Registry,
             StepView.refresh trg.Registry,
             StepView.ensure (trg.Registry ++ m.To),
             StepView.sync (src.Registry ++ m.From) (trg.Registry ++ m.To) m.Tags]))
    ∧ ((syncMappings C A src trg v ms).1.filter isTLogErr
        = (stepErrors C A src trg v ms).map TEvent.logError) := by
  induction ms generalizing src trg with
  | nil => simp [syncMappings, stepErrors]
  | cons m rest ih =>
    obtain ⟨ih1, ih2⟩ := ih (applyRefresh A src).1 (applyRefresh A trg).1
    simp only [applyRefresh_registry] at ih1
    refine ⟨?_, ?_⟩ <;>
      simp [syncMappings, stepErrors, List.filterMap_append, List.filter_append,
        List.filterMap_cons, List.filter_cons, stepView, isTLogErr,
        logOfT_filterMap_stepView, logOfT_filter_logErr,
        applyRefresh_registry, ih1, ih2]

theorem syncMappings_calls (C : Client) (A : AuthProvider)
    (src trg : Location) (v : Bool) (ms : List Mapping) :
    (((syncMappings C A src trg v ms).1.filter isSyncCall).map projSync
        = ms.map (fun m => (src.Registry ++ m.From, trg.Registry ++ m.To, m.Tags)))
    ∧ ((syncMappings C A src trg v ms).1.filter isRefresh
        = ms.flatMap (fun _ =>
            [TEvent.refreshAuth src.Registry, TEvent.refreshAuth trg.Registry]))
    ∧ ((syncMappings C A src trg v ms).1.filter isEnsure
        = ms.map (fun m => TEvent.ensureTarget (trg.Registry ++ m.To))) := by
  induction ms generalizing src trg with
  | nil => simp [syncMappings]
  | cons m rest ih =>
    obtain ⟨ih1, ih2, ih3⟩ := ih (applyRefresh A src).1 (applyRefresh A trg).1
    simp only [applyRefresh_registry] at ih1 ih2 ih3
    refine ⟨?_, ?_, ?_⟩ <;>
      simp [syncMappings, List.filter_append, List.filter_cons,
        logOfT_filter_syncCall, logOfT_filter_refresh, logOfT_filter_ensure,
        isSyncCall, isRefresh, isEnsure, projSync, applyRefresh_registry,
        ih1, ih2, ih3]

theorem oneOffPass_names (C : Client) (A : AuthProvider) (ts : List Task) :
    ((oneOffPass C A ts).1.map nameOf
        = (ts.filter (fun t => t.Interval == 0)).map Task.Name)
    ∧ (∀ e ∈ (oneOffPass C A ts).1, isRunTask e = true) := by
  induction ts with
  | nil => simp [oneOffPass]
  | cons t rest ih =>
    by_cases h : t.Interval = 0 <;>
      (simp [oneOffPass, h, nameOf, isRunTask, List.filter_cons, ih.1]
       ; exact ih.2)

/-- C5: `SyncTask` processes the task's mappings in declared list order, and
for arbitrary client and auth oracles — including ones whose refresh, ensure
or `Sync` steps fail — the step events of the whole trace are exactly, per
mapping and in this order: refresh of the source location, refresh of the
target location (both unconditional, re-issued on every run), ensure of the
resolved target reference, then the `Sync` invocation on the resolved
references with the mapping's tag filter; so no step's error prevents any
later step or mapping.  Moreover the error log lines of the trace are
exactly the errors returned by the refresh/ensure/`Sync` steps, in step
order: every step error is logged. -/
theorem syncTask_mapping_steps (C : Client) (A : AuthProvider) (t : Task) :
    ((SyncTask C A t).1.filterMap stepView
        = t.Mappings.flatMap (fun m =>
            [StepView.refresh t.Source.Registry,
             StepView.refresh t.Target.Registry,
             StepView.ensure (t.Target.Registry ++ m.To),
             StepView.sync (t.Source.Registry ++ m.From)
               (t.Target.Registry ++ m.To) m.Tags]))
    ∧ ((SyncTask C A t).1.filter isTLogErr
        = (stepErrors C A t.Source t.Target t.Verbose t.Mappings).map
            TEvent.logError) := by
  simpa [SyncTask] using
    syncMappings_step_views C A t.Source t.Target t.Verbose t.Mappings

/-- C6: `SyncFromConfig` first issues the Docker liveness check with the
fixed retry budget (30 attempts, 10 seconds apart); whatever the ping
returns, the same one-off pass and tick consumption follow (a ping failure
only adds an error log line inside `pingSeg`).  Every task with
`Interval = 0` is run exactly once, in configuration order, before any tick
is consumed; if no task has `Interval > 0` the call returns after the
one-off pass, otherwise it stays running for every finite tick schedule. -/
theorem syncFromConfig_schedule (C : Client) (A : AuthProvider)
    (conf : syncConfig) (ticks : List Nat) :
    ((SyncFromConfig C A conf ticks).1
        = pingSeg C ++ (oneOffPass C A conf.Tasks).1
          ++ (if conf.Tasks.any (fun t => 0 < t.Interval)
              then (tickLoop C A (oneOffPass C A conf.Tasks).2 ticks).1 else []))
    ∧ ((oneOffPass C A conf.Tasks).1.map nameOf
        = (conf.Tasks.filter (fun t => t.Interval == 0)).map Task.Name)
    ∧ ((SyncFromConfig C A conf ticks).2
        = if conf.Tasks.any (fun t => 0 < t.Interval) then Outcome.running
          else Outcome.returned none) := by
  refine ⟨?_, (oneOffPass_names C A conf.Tasks).1, ?_⟩ <;>
    by_cases h : conf.Tasks.any (fun t => 0 < t.Interval) = true <;>
    simp [SyncFromConfig, h]

/-- C10: `SyncFromConfig` returns `nil` on every execution path — every
terminating run returns `Outcome.returned none`; no ping, auth-refresh,
ensure-target or per-task `Sync` failure is ever surfaced to the caller. -/
theorem syncFromConfig_returns_nil (C : Client) (A : AuthProvider)
    (conf : syncConfig) (ticks : List Nat) :
    (SyncFromConfig C A conf ticks).2 = Outcome.running
    ∨ (SyncFromConfig C A conf ticks).2 = Outcome.returned none := by
  by_cases h : conf.Tasks.any (fun t => 0 < t.Interval) = true
  · exact Or.inl (by simp [SyncFromConfig, h])
  · exact Or.inr (by simp [SyncFromConfig, h])

theorem pullPhase_filter_list (C : Client) (srcRef srcAuth : String)
    (verbose : Bool) (tags : List String) :
    (pullPhase C srcRef srcAuth verbose tags).1.filter isList = [] :=
  filter_nil_of_shape (pullPhase_shape C srcRef srcAuth verbose tags)
    (fun e _ => by cases e <;> simp_all [isPull, isList])

theorem pullPhase_filter_tag (C : Client) (srcRef srcAuth : String)
    (verbose : Bool) (tags : List String) :
    (pullPhase C srcRef srcAuth verbose tags).1.filter isTagEv = [] :=
  filter_nil_of_shape (pullPhase_shape C srcRef srcAuth verbose tags)
    (fun e _ => by cases e <;> simp_all [isPull, isTagEv])

theorem pullPhase_filter_push (C : Client) (srcRef srcAuth : String)
    (verbose : Bool) (tags : List String) :
    (pullPhase C srcRef srcAuth verbose tags).1.filter isPushEv = [] :=
  filter_nil_of_shape (pullPhase_shape C srcRef srcAuth verbose tags)
    (fun e _ => by cases e <;> simp_all [isPull, isPushEv])

theorem listPhase_filter_push (C : Client) (srcRef : String) (tags : List String) :
    (listPhase C srcRef tags).1.filter isPushEv = [] :=
  filter_nil_of_shape2 (listPhase_shape C srcRef tags)
    (fun e _ => by cases e <;> simp_all [isList, isPushEv])
    (fun e _ => by cases e <;> simp_all [isLogErr, isPushEv])

theorem tag_filter_push (C : Client) (images : List Image) (targetRef : String) :
    (tag C images targetRef).1.filter isPushEv = [] :=
  filter_nil_of_shape (tag_shape C images targetRef)
    (fun e _ => by cases e <;> simp_all [isTagEv, isPushEv])

/-- C1 (counterexample to the claim as stated): with a client whose all-tags
pull fails, a `Sync` call with empty `tags` issues its single pull but no
list call at all, so "exactly one list call is issued" does not hold without
requiring the pull to succeed. -/
theorem sync_empty_tags_counts_cex :
    ((Sync cexClient "r/img" "u" "t/img" "w" [] false).1.filter isPull).length = 1
    ∧ ((Sync cexClient "r/img" "u" "t/img" "w" [] false).1.filter isList).length = 0
    ∧ ((Sync cexClient "r/img" "u" "t/img" "w" [] false).1.filter isList).length ≠ 1 := by
  refine ⟨rfl, rfl, by decide⟩

/-- C1 (amended): provided every requested pull succeeds — including, in the
empty-`tags` case, the single all-tags pull — `Sync` with empty `tags` issues
exactly one pull (all-tags, on `srcRef`) and one list call (on `srcRef`), and
`Sync` with tags `[t1,...,tn]` issues exactly the `n` pulls of `srcRef:ti`
with `allTags = false` and the `n` list calls of `srcRef:ti`, in tag order. -/
theorem sync_pull_list_counts (C : Client) (srcRef srcAuth trgtRef trgtAuth : String)
    (verbose : Bool) (tags : List String)
    (hempty : C.pullImage srcRef true srcAuth verbose = none)
    (hpulls : ∀ t ∈ tags, C.pullImage (refTagged srcRef t) false srcAuth verbose = none) :
    ((Sync C srcRef srcAuth trgtRef trgtAuth tags verbose).1.filter isPull
        = (match tags with
           | [] => [Event.pull srcRef true srcAuth verbose]
           | _ => tags.map (fun t => Event.pull (refTagged srcRef t) false srcAuth verbose)))
    ∧ ((Sync C srcRef srcAuth trgtRef trgtAuth tags verbose).1.filter isList
        = (match tags with
           | [] => [Event.list srcRef]
           | _ => tags.map (fun t => Event.list (refTagged srcRef t)))) := by
  have hpp := pullPhase_ok C srcRef srcAuth verbose tags hempty hpulls
  have hpp2 : (pullPhase C srcRef srcAuth verbose tags).2 = none := by rw [hpp]
  rw [Sync_pull_ok C srcRef srcAuth trgtRef trgtAuth tags verbose hpp2]
  constructor
  · rw [List.filter_append, afterPull_filter_pull,
      List.filter_eq_self.mpr (pullPhase_shape C srcRef srcAuth verbose tags), hpp]
    simp
  · rw [List.filter_append, afterPull_filter_list, listPhase_filter_list,
      pullPhase_filter_list]
    cases tags <;> simp

/-- C1 amended witness: a concrete run with two tags issues the two pulls
and the two lists, in order. -/
theorem sync_pull_list_counts_wit :
    ((Sync okClient "s" "u" "t" "w" ["a", "b"] false).1.filter isPull
        = ["a", "b"].map (fun t => Event.pull (refTagged "s" t) false "u" false))
    ∧ ((Sync okClient "s" "u" "t" "w" ["a", "b"] false).1.filter isList
        = ["a", "b"].map (fun t => Event.list (refTagged "s" t))) :=
  sync_pull_list_counts okClient "s" "u" "t" "w" false ["a", "b"] rfl (fun _ _ => rfl)

/-- C2: a pull failure is a hard error: with tags `pre ++ t :: post`, if the
pulls of `pre` succeed and the pull of `t` fails, `Sync` returns the wrapped
error at once, and the trace is exactly the pulls of `pre` plus the failing
pull — no pull for `post`, no list, no tag and no push call; likewise, in the
empty-`tags` case a failing all-tags pull makes `Sync` return after that
single pull. -/
theorem sync_pull_failure_aborts (C : Client) (srcRef srcAuth trgtRef trgtAuth : String)
    (verbose : Bool) (pre post : List String) (t m : String)
    (hpre : ∀ p ∈ pre, C.pullImage (refTagged srcRef p) false srcAuth verbose = none)
    (ht : C.pullImage (refTagged srcRef t) false srcAuth verbose = some m) :
    (Sync C srcRef srcAuth trgtRef trgtAuth (pre ++ t :: post) verbose
        = (pre.map (fun p => Event.pull (refTagged srcRef p) false srcAuth verbose)
            ++ [Event.pull (refTagged srcRef t) false srcAuth verbose],
           some (pullErrMsg (refTagged srcRef t) m)))
    ∧ (∀ m2, C.pullImage srcRef true srcAuth verbose = some m2 →
        Sync C srcRef srcAuth trgtRef trgtAuth [] verbose
          = ([Event.pull srcRef true srcAuth verbose], some (pullErrMsg srcRef m2))) := by
  constructor
  · have hpa := pullAll_fail C srcRef srcAuth verbose pre post t m hpre ht
    have hpp : pullPhase C srcRef srcAuth verbose (pre ++ t :: post)
        = (pre.map (fun p => Event.pull (refTagged srcRef p) false srcAuth verbose)
            ++ [Event.pull (refTagged srcRef t) false srcAuth verbose],
           some (pullErrMsg (refTagged srcRef t) m)) := by
      cases pre <;> simpa [pullPhase] using hpa
    rw [Sync_pull_fail C srcRef srcAuth trgtRef trgtAuth (pre ++ t :: post) verbose
      (pullErrMsg (refTagged srcRef t) m) (by rw [hpp]), hpp]
  · intro m2 hm2
    have hpp : pullPhase C srcRef srcAuth verbose []
        = ([Event.pull srcRef true srcAuth verbose], some (pullErrMsg srcRef m2)) := by
      simp [pullPhase, hm2]
    rw [Sync_pull_fail C srcRef srcAuth trgtRef trgtAuth [] verbose
      (pullErrMsg srcRef m2) (by rw [hpp]), hpp]

/-- C2 witness: with a client failing exactly on `src:bad`, the run with tags
`["good", "bad", "later"]` stops right after the failing pull. -/
theorem sync_pull_failure_aborts_wit :
    Sync pullFailClient "src" "u" "t" "w" ["good", "bad", "later"] false
      = (["good"].map (fun p => Event.pull (refTagged "src" p) false "u" false)
          ++ [Event.pull (refTagged "src" "bad") false "u" false],
         some (pullErrMsg (refTagged "src" "bad") "down")) :=
  (sync_pull_failure_aborts pullFailClient "src" "u" "t" "w" false ["good"] ["later"]
    "bad" "down" (by decide) (by decide)).1

/-- C3: after a successful pull phase, the re-tag step splits `trgtRef` with
`SplitRef` into `(targetRepo, targetPath)` and — when all tagging calls
succeed — issues, for every enumerated image and every tag on it, exactly the
call `TagImage(img.ID, targetRepo/targetPath:tag)`; and if the re-tag step
fails, `Sync` returns the wrapped tagging error and no push call appears in
the trace. -/
theorem sync_retag_shape_and_abort (C : Client)
    (srcRef srcAuth trgtRef trgtAuth : String) (verbose : Bool) (tags : List String)
    (hempty : C.pullImage srcRef true srcAuth verbose = none)
    (hpulls : ∀ t ∈ tags, C.pullImage (refTagged srcRef t) false srcAuth verbose = none) :
    ((∀ img ∈ (listPhase C srcRef tags).2, ∀ tg ∈ img.Tags,
        C.tagImage img.ID
          (refTagged ((C.splitRef trgtRef).1 ++ "/" ++ (C.splitRef trgtRef).2) tg) = none) →
      (Sync C srcRef srcAuth trgtRef trgtAuth tags verbose).1.filter isTagEv
        = (listPhase C srcRef tags).2.flatMap (fun img => img.Tags.map (fun tg =>
            Event.tagImage img.ID
              (refTagged ((C.splitRef trgtRef).1 ++ "/" ++ (C.splitRef trgtRef).2) tg))))
    ∧ (∀ e, (tag C (listPhase C srcRef tags).2 trgtRef).2 = Except.error e →
        (Sync C srcRef srcAuth trgtRef trgtAuth tags verbose).2 = some (tagsErrMsg e)
        ∧ (Sync C srcRef srcAuth trgtRef trgtAuth tags verbose).1.filter isPushEv = []) := by
  have hpp2 : (pullPhase C srcRef srcAuth verbose tags).2 = none := by
    rw [pullPhase_ok C srcRef srcAuth verbose tags hempty hpulls]
  have hsync := Sync_pull_ok C srcRef srcAuth trgtRef trgtAuth tags verbose hpp2
  constructor
  · intro htags
    have htg := tagGo_ok C (C.splitRef trgtRef).1 (C.splitRef trgtRef).2
      (listPhase C srcRef tags).2 htags
    rw [hsync, List.filter_append, afterPull_filter_tag, pullPhase_filter_tag]
    simp [tag, htg]
  · intro e he
    have hap := afterPull_tag_fail C srcRef trgtRef trgtAuth tags verbose e he
    refine ⟨?_, ?_⟩
    · rw [hsync, hap]
    · rw [hsync, List.filter_append, pullPhase_filter_push, hap]
      simp [List.filter_append, listPhase_filter_push, tag_filter_push]

/-- C3 witness: with the all-succeeding client and one tag, the trace
contains exactly the tag call of the one enumerated image. -/
theorem sync_retag_shape_and_abort_wit :
    (Sync okClient "s" "u" "t" "w" ["a"] false).1.filter isTagEv
      = (listPhase okClient "s" ["a"]).2.flatMap (fun img => img.Tags.map (fun tg =>
          Event.tagImage img.ID
            (refTagged ((okClient.splitRef "t").1 ++ "/" ++ (okClient.splitRef "t").2) tg))) :=
  (sync_retag_shape_and_abort okClient "s" "u" "t" "w" false ["a"] rfl
    (fun _ _ => rfl)).1 (fun _ _ _ _ => rfl)

/-- C4: list failures are never fatal and never lose sibling results: under a
successful pull phase, and with tagging and pushing succeeding, `Sync`
returns `nil` with no assumption whatsoever on the outcome of the list
calls; the image list handed to the re-tag step is the concatenation, in tag
order, of whatever each list call returned; and every failing list call
contributes its wrapped error log line to the trace. -/
theorem sync_list_failure_nonfatal (C : Client)
    (srcRef srcAuth trgtRef trgtAuth : String) (verbose : Bool) (tags : List String)
    (hempty : C.pullImage srcRef true srcAuth verbose = none)
    (hpulls : ∀ t ∈ tags, C.pullImage (refTagged srcRef t) false srcAuth verbose = none)
    (htags : ∀ img ∈ (listPhase C srcRef tags).2, ∀ tg ∈ img.Tags,
        C.tagImage img.ID
          (refTagged ((C.splitRef trgtRef).1 ++ "/" ++ (C.splitRef trgtRef).2) tg) = none)
    (hpush : C.pushImage trgtRef true trgtAuth verbose = none) :
    ((Sync C srcRef srcAuth trgtRef trgtAuth tags verbose).2 = none)
    ∧ ((listPhase C srcRef tags).2
        = (match tags with
           | [] => (C.listImages srcRef).1
           | _ => tags.flatMap (fun t => (C.listImages (refTagged srcRef t)).1)))
    ∧ (∀ t ∈ tags, ∀ m, (C.listImages (refTagged srcRef t)).2 = some m →
        Event.logError (listErrMsg (refTagged srcRef t) m)
          ∈ (Sync C srcRef srcAuth trgtRef trgtAuth tags verbose).1) := by
  have hpp2 : (pullPhase C srcRef srcAuth verbose tags).2 = none := by
    rw [pullPhase_ok C srcRef srcAuth verbose tags hempty hpulls]
  have hsync := Sync_pull_ok C srcRef srcAuth trgtRef trgtAuth tags verbose hpp2
  have htg := tagGo_ok C (C.splitRef trgtRef).1 (C.splitRef trgtRef).2
    (listPhase C srcRef tags).2 htags
  have htag2 : (tag C (listPhase C srcRef tags).2 trgtRef).2
      = Except.ok ((listPhase C srcRef tags).2.map
          (retag (C.splitRef trgtRef).1 (C.splitRef trgtRef).2)) := by
    simp [tag, htg]
  have hap := afterPull_tag_ok C srcRef trgtRef trgtAuth tags verbose _ htag2
  refine ⟨?_, ?_, ?_⟩
  · rw [hsync]
    simp [hap, hpush]
  · cases tags <;> simpa using listPhase_images C srcRef _
  · intro t htmem m hm
    rw [hsync, List.mem_append]
    right
    rw [hap]
    cases tags with
    | nil => exact absurd htmem (List.not_mem_nil t)
    | cons t0 rest =>
      refine List.mem_append.mpr (Or.inl (List.mem_append.mpr (Or.inl ?_)))
      have hlp : (listPhase C srcRef (t0 :: rest)).1
          = (t0 :: rest).flatMap (fun t =>
              Event.list (refTagged srcRef t)
                :: logOf ((C.listImages (refTagged srcRef t)).2.map
                     (listErrMsg (refTagged srcRef t)))) := by
        simpa [listPhase] using congrArg Prod.fst (listTags_eq C srcRef (t0 :: rest))
      rw [hlp]
      refine List.mem_flatMap.mpr ⟨t, htmem, ?_⟩
      rw [hm]
      simp [logOf]

/-- C4 witness: with a client whose every list call fails, a one-tag `Sync`
still returns `nil` and the failure's log line is in the trace. -/
theorem sync_list_failure_nonfatal_wit :
    ((Sync listFailClient "s" "u" "t" "w" ["a"] false).2 = none)
    ∧ Event.logError (listErrMsg (refTagged "s" "a") "registry unreachable")
        ∈ (Sync listFailClient "s" "u" "t" "w" ["a"] false).1 := by
  have h := sync_list_failure_nonfatal listFailClient "s" "u" "t" "w" false ["a"]
    rfl (fun _ _ => rfl) (by decide) rfl
  exact ⟨h.1, h.2.2 "a" (by decide) "registry unreachable" rfl⟩

/-- C7: when the pull phase succeeds and the enumerated image list is empty,
the re-tag step is a no-op, the push is still issued and `Sync` returns
`nil` when the push succeeds; moreover in every `Sync` run whatsoever, any
push event in the trace is the single all-tags push of the target reference
(`PushImage(trgtRef, true, trgtAuth, verbose)`), regardless of the `tags`
argument. -/
theorem sync_push_always_all_tags (C : Client)
    (srcRef srcAuth trgtRef trgtAuth : String) (verbose : Bool) (tags : List String)
    (hpl : (pullPhase C srcRef srcAuth verbose tags).2 = none)
    (hemp : (listPhase C srcRef tags).2 = [])
    (hpush : C.pushImage trgtRef true trgtAuth verbose = none) :
    (Sync C srcRef srcAuth trgtRef trgtAuth tags verbose
        = ((pullPhase C srcRef srcAuth verbose tags).1 ++ (listPhase C srcRef tags).1
            ++ [Event.push trgtRef true trgtAuth verbose], none))
    ∧ ((Sync C srcRef srcAuth trgtRef trgtAuth tags verbose).1.filter isTagEv = [])
    ∧ (∀ (C2 : Client) (a b c d : String) (ts : List String) (v : Bool),
        ∀ e ∈ (Sync C2 a b c d ts v).1, isPushEv e = true → e = Event.push c true d v) := by
  have hsync := Sync_pull_ok C srcRef srcAuth trgtRef trgtAuth tags verbose hpl
  have htag2 : (tag C (listPhase C srcRef tags).2 trgtRef).2 = Except.ok [] := by
    rw [hemp]
    rfl
  have htag1 : (tag C (listPhase C srcRef tags).2 trgtRef).1 = [] := by
    rw [hemp]
    rfl
  have hap := afterPull_tag_ok C srcRef trgtRef trgtAuth tags verbose [] htag2
  refine ⟨?_, ?_, fun C2 a b c d ts v => Sync_push_shape C2 a b c d ts v⟩
  · rw [hsync, hap, htag1]
    simp [hpush]
  · rw [hsync, List.filter_append, afterPull_filter_tag, htag1,
      pullPhase_filter_tag]
    rfl

/-- C7 witness: a concrete empty-image run still pushes and succeeds. -/
theorem sync_push_always_all_tags_wit :
    Sync listFailClient "s" "u" "t" "w" [] false
      = ((pullPhase listFailClient "s" "u" false []).1
          ++ (listPhase listFailClient "s" []).1
          ++ [Event.push "t" true "w" false], none) :=
  (sync_push_always_all_tags listFailClient "s" "u" "t" "w" false [] rfl rfl rfl).1

/-- C8: the re-tag step never mutates the enumerated images: when every
tagging call succeeds it returns a list of fresh image values, one per source
image in order, each carrying the source image's `ID` and `Tags` unchanged
and the `Repo`/`Path` obtained by splitting the target reference — the input
images themselves are only read (the model is a pure function of them). -/
theorem tag_fresh_images (C : Client) (images : List Image) (targetRef : String)
    (h : ∀ img ∈ images, ∀ tg ∈ img.Tags,
        C.tagImage img.ID
          (refTagged ((C.splitRef targetRef).1 ++ "/" ++ (C.splitRef targetRef).2) tg) = none) :
    (tag C images targetRef).2
      = Except.ok (images.map (fun img =>
          { ID := img.ID, Repo := (C.splitRef targetRef).1,
            Path := (C.splitRef targetRef).2, Tags := img.Tags })) := by
  have htg := tagGo_ok C (C.splitRef targetRef).1 (C.splitRef targetRef).2 images h
  simp [tag, htg, retag]

/-- C8 witness: re-tagging one concrete image yields the fresh target-bound
image with the same ID and tags. -/
theorem tag_fresh_images_wit :
    (tag okClient [{ ID := "sha1", Repo := "reg", Path := "img", Tags := ["a"] }] "t").2
      = Except.ok [{ ID := "sha1", Repo := "treg", Path := "tpath", Tags := ["a"] }] :=
  tag_fresh_images okClient
    [{ ID := "sha1", Repo := "reg", Path := "img", Tags := ["a"] }] "t"
    (fun _ _ _ _ => rfl)

end Dregsy
